import Mathlib

/-!
Verification development for the DungeonOrganizer file-organizer server
(src/dungeon_server.py).  The filesystem is modelled shallowly: a path is its
list of components, and a filesystem state is the list of existing regular
files plus the list of existing directories.  Pure helpers of the source
(`_room_for`, `_safe_dest`, `_iter_files`, `_detect_monsters`,
`_quest_progress`, `_plan_reorganize`, `_write_undo_ps1`, `reorganize`) are
translated function by function.  Python float arithmetic in
`_quest_progress` is modelled exactly as IEEE-754 binary64 over the
rationals.  Environment-dependent exceptions caught by the apply loop of
`reorganize` (permission errors and similar) are modelled by an oracle
passed as a parameter.
-/

namespace DungeonOrganizer

/-- A filesystem path, as its list of components (what pathlib calls
`parts`). -/
abbrev FPath := List String

/-- Filesystem state: the regular files and the directories that exist.
The order of `files` models the (stable) traversal order of `glob`/`rglob`. -/
structure FS where
  files : List FPath
  dirs : List FPath
deriving DecidableEq

/-- `Path.exists()` of the source: the path names a file or a directory. -/
abbrev FS.pathExists (fs : FS) (p : FPath) : Prop :=
  p ∈ fs.files ∨ p ∈ fs.dirs

/-- `mkdir(parents=True, exist_ok=True)` on a directory path. -/
def FS.addDir (fs : FS) (d : FPath) : FS :=
  if d ∈ fs.dirs then fs else { fs with dirs := fs.dirs ++ [d] }

/-- Creating (or overwriting) a regular file, as `write_text` does. -/
def FS.addFile (fs : FS) (p : FPath) : FS :=
  if p ∈ fs.files then fs else { fs with files := fs.files ++ [p] }

/-- Removing a regular file (the source half of `shutil.move`). -/
def FS.removeFile (fs : FS) (p : FPath) : FS :=
  { fs with files := fs.files.filter (fun q => q ≠ p) }

/-- ASCII lowercasing of one character, as Python `str.lower` acts on the
ASCII range (all extensions and keys in the source are ASCII). -/
def lowerChar (c : Char) : Char :=
  if 65 ≤ c.toNat ∧ c.toNat ≤ 90 then Char.ofNat (c.toNat + 32) else c

/-- ASCII lowercasing of a string, modelling `str.lower()`. -/
def lowerStr (s : String) : String :=
  String.mk (s.data.map lowerChar)

/-- Index of the last dot in a character list: `str.rfind` of the pathlib
suffix computation. -/
def rfindDot (cs : List Char) : Option Nat :=
  match cs.reverse.findIdx? (fun c => c == '.') with
  | none => none
  | some j => some (cs.length - 1 - j)

/-- `PurePath.suffix` of a file name: the part from the last dot on, provided
that dot is neither the first nor the last character; otherwise empty. -/
def suffixOf (name : String) : String :=
  match rfindDot name.data with
  | none => ""
  | some i =>
    if 0 < i ∧ i + 1 < name.data.length then String.mk (name.data.drop i) else ""

/-- `PurePath.stem` of a file name: the name with its suffix removed. -/
def stemOf (name : String) : String :=
  match rfindDot name.data with
  | none => name
  | some i =>
    if 0 < i ∧ i + 1 < name.data.length then String.mk (name.data.take i) else name

/-- ROOM_RULES of the source: the ordered category table (Python dicts keep
insertion order). -/
def ROOM_RULES : List (String × List String) :=
  [("🖼️ Images Room", [".png", ".jpg", ".jpeg", ".webp", ".gif", ".bmp", ".tiff"]),
   ("📚 Docs Library", [".pdf", ".docx", ".doc", ".pptx", ".ppt", ".xlsx", ".xls", ".txt", ".md", ".csv"]),
   ("💻 Code Cave", [".py", ".js", ".ts", ".java", ".cs", ".cpp", ".c", ".html", ".css", ".json", ".sql", ".yml", ".yaml"]),
   ("🎵 Media Hall", [".mp4", ".mov", ".mkv", ".mp3", ".wav", ".avi", ".flac", ".m4a"]),
   ("🧰 Archives Vault", [".zip", ".rar", ".7z", ".tar", ".gz", ".iso"])]

/-- The fallback category of `_room_for`. -/
def UNKNOWN_ROOM : String := "🕳️ Unknown Swamp"

/-- The loop of `_room_for`: first rule whose extension set holds the
extension wins; no match falls through to the fallback category. -/
def lookupRoom : List (String × List String) → String → String
  | [], _ => UNKNOWN_ROOM
  | (room, exts) :: rest, e => if e ∈ exts then room else lookupRoom rest e

/-- `_room_for`: lowercase the extension, then scan the rule table in order. -/
def roomFor (ext : String) : String :=
  lookupRoom ROOM_RULES (lowerStr ext)

/-- DEFAULT_EXCLUDE_DIRS of the source (a set; only membership is used). -/
def DEFAULT_EXCLUDE_DIRS : List String := ["_Sorted", "_DungeonOutput"]

/-- `_iter_files`: recursive traversal skips every file one of whose path
components lies in the excluded set; the non-recursive branch lists the
direct children that are files, with no exclusion check. -/
def iterFiles (fs : FS) (base : FPath) (recursive : Bool) (exclude : List String) : List FPath :=
  if recursive then
    fs.files.filter (fun p =>
      decide (base <+: p ∧ base.length < p.length ∧ ¬ ∃ part ∈ p, part ∈ exclude))
  else
    fs.files.filter (fun p => decide (base <+: p ∧ p.length = base.length + 1))

/-- The `while dest.exists()` loop of `_safe_dest`, with explicit fuel: each
iteration tests a fresh candidate name against the finite filesystem, so the
Python loop terminates; callers pass fuel at least the filesystem size. -/
def safeDestLoop (fs : FS) (destDir : FPath) (stem suf : String) : Nat → Nat → FPath
  | 0, i => destDir ++ [stem ++ "_dup" ++ toString i ++ suf]
  | Nat.succ fuel, i =>
    if fs.pathExists (destDir ++ [stem ++ "_dup" ++ toString i ++ suf]) then
      safeDestLoop fs destDir stem suf fuel (i + 1)
    else destDir ++ [stem ++ "_dup" ++ toString i ++ suf]

/-- `_safe_dest`: the plain destination if it does not exist, else the first
`{stem}_dup{i}{suffix}` (i = 1, 2, ...) that does not exist.  Only the real
filesystem state is consulted. -/
def safeDest (fs : FS) (destDir : FPath) (filename : String) : FPath :=
  if fs.pathExists (destDir ++ [filename]) then
    safeDestLoop fs destDir (stemOf filename) (suffixOf filename)
      (fs.files.length + fs.dirs.length + 1) 1
  else destDir ++ [filename]

/-- One proposed relocation of `_plan_reorganize` (keys "from", "to",
"room"). -/
structure Move where
  src : FPath
  dst : FPath
  room : String
deriving DecidableEq

/-- The body of the planning loop of `_plan_reorganize` for one candidate:
skip files already under the sorted root, otherwise classify, create the
category directory, and pick a collision-free destination. -/
def planStep (sortedRoot : FPath) (acc : List Move × FS) (src : FPath) : List Move × FS :=
  if sortedRoot <+: src then acc
  else
    (acc.1 ++ [{ src := src,
                 dst := safeDest (acc.2.addDir (sortedRoot ++ [roomFor (lowerStr (suffixOf (src.getLastD "")))]))
                   (sortedRoot ++ [roomFor (lowerStr (suffixOf (src.getLastD "")))]) (src.getLastD ""),
                 room := roomFor (lowerStr (suffixOf (src.getLastD ""))) }],
     acc.2.addDir (sortedRoot ++ [roomFor (lowerStr (suffixOf (src.getLastD "")))]))

/-- `_plan_reorganize`: create the sorted root, rescan, and fold the planning
step over the candidates in traversal order.  Returns the plan and the
filesystem as mutated by the directory creations. -/
def planReorganize (fs0 : FS) (base : FPath) (recursive : Bool) (exclude : List String) :
    List Move × FS :=
  (iterFiles (fs0.addDir (base ++ ["_Sorted"])) base recursive exclude).foldl
    (planStep (base ++ ["_Sorted"])) ([], fs0.addDir (base ++ ["_Sorted"]))

/-- A file record as `_detect_monsters` consumes it: the fields `path`,
`name` and `size` of the scan metadata dictionaries are the only ones it
reads. -/
structure FRec where
  path : FPath
  name : String
  size : Nat
deriving DecidableEq

/-- The grouping key of duplicate detection: `(f["size"], f["name"].lower())`. -/
def keyOf (f : FRec) : Nat × String :=
  (f.size, lowerStr f.name)

/-- `_sha256_file`, over a content oracle (`none` models a path that does not
exist or cannot be opened) and an abstract digest function standing for
SHA-256: hashing is skipped, returning `none`, when the file is unreadable or
larger than the 50 MiB cap. -/
def sha256File (content : FPath → Option (List Nat)) (digest : List Nat → Nat) (p : FPath) :
    Option Nat :=
  match content p with
  | none => none
  | some bs => if bs.length > 50 * 1024 * 1024 then none else some (digest bs)

/-- The comparison `ha and hb and ha == hb` of `_detect_monsters` (a SHA-256
hex digest is never the empty string, so truthiness is being `some`). -/
def hashCmp (sha : FPath → Option Nat) (a b : FPath) : Bool :=
  match sha a, sha b with
  | some x, some y => decide (x = y)
  | _, _ => false

/-- An anomaly of `_detect_monsters`. -/
inductive Monster
  | behemoth (path : FPath) (size : Nat)
  | dup (a b : FPath) (size : Nat)
deriving DecidableEq

/-- Whether an anomaly is a duplicate report. -/
def isDup : Monster → Bool
  | Monster.dup _ _ _ => true
  | _ => false

/-- Whether an anomaly is an oversize report. -/
def isBehemoth : Monster → Bool
  | Monster.behemoth _ _ => true
  | _ => false

/-- Dictionary lookup in the `seen` association list of `_detect_monsters`
(keys are inserted only when absent, so an association is unique). -/
def seenLookup (key : Nat × String) : List ((Nat × String) × FPath) → Option FPath
  | [] => none
  | (k, v) :: rest => if k = key then some v else seenLookup key rest

/-- The loop of `_detect_monsters`: `seen` is the dictionary mapping a key to
the path of the first record seen with that key. -/
def detectAux (sha : FPath → Option Nat) :
    List FRec → List ((Nat × String) × FPath) → List Monster
  | [], _ => []
  | f :: rest, seen =>
    (if f.size > 200 * 1024 * 1024 then [Monster.behemoth f.path f.size] else []) ++
    (match seenLookup (keyOf f) seen with
     | some a =>
       (if hashCmp sha a f.path then [Monster.dup a f.path f.size] else []) ++
       detectAux sha rest seen
     | none => detectAux sha rest (seen ++ [(keyOf f, f.path)]))

/-- `_detect_monsters`, parametrised by the hash function `_sha256_file`
applied to the current filesystem. -/
def detectMonsters (sha : FPath → Option Nat) (files : List FRec) : List Monster :=
  detectAux sha files []

/-! IEEE-754 binary64 arithmetic, for the float expression
`int((sorted_count / total) * 100)` of `_quest_progress`.  A nonnegative
double is represented exactly as a mantissa/exponent pair `(m, e)` of value
`m * 2 ^ (e - 52)`; rounding is round-to-nearest, ties to even, at 53 bits
of significand.  All values arising here lie far inside the normal range,
so subnormals and overflow never arise; everything is plain natural-number
arithmetic so that the kernel can evaluate it. -/

/-- Round the fraction `num / den` (with `den > 0`) to the nearest natural
number, ties to even. -/
def roundNearestEvenNat (num den : Nat) : Nat :=
  if 2 * (num % den) < den then num / den
  else if den < 2 * (num % den) then num / den + 1
  else if num / den % 2 = 0 then num / den else num / den + 1

/-- Binary exponent of the positive fraction `num / den`: the `e` with
`2 ^ e ≤ num / den < 2 ^ (e + 1)`, found by doubling the smaller side; the
fuel bounds the steps and is ample for the binary64 range. -/
def findExp : Nat → Nat → Nat → ℤ → ℤ
  | 0, _, _, e => e
  | Nat.succ fuel, num, den, e =>
    if num < den then findExp fuel (num * 2) den (e - 1)
    else if 2 * den ≤ num then findExp fuel num (den * 2) (e + 1)
    else e

/-- Correct rounding of the positive fraction `num / den` to a binary64
mantissa/exponent pair. -/
def roundPosPair (num den : Nat) : Nat × ℤ :=
  if (findExp 2200 num den 0) ≤ 52 then
    (roundNearestEvenNat (num * 2 ^ (52 - findExp 2200 num den 0).toNat) den,
     findExp 2200 num den 0)
  else
    (roundNearestEvenNat num (den * 2 ^ (findExp 2200 num den 0 - 52).toNat),
     findExp 2200 num den 0)

/-- Python true division `s / t` of nonnegative integers, producing the
correctly rounded double (`t = 0` raises in Python and is unreachable under
the `total == 0` guard of `_quest_progress`). -/
def pyDivPair (s t : Nat) : Nat × ℤ :=
  if s = 0 then (0, 0) else roundPosPair s t

/-- Python float multiplication by the exact integer 100: the exact product
re-rounded to binary64. -/
def pyMul100 (p : Nat × ℤ) : Nat × ℤ :=
  if p.1 = 0 then (0, 0)
  else if 52 ≤ p.2 then roundPosPair (p.1 * 100 * 2 ^ (p.2 - 52).toNat) 1
  else roundPosPair (p.1 * 100) (2 ^ (52 - p.2).toNat)

/-- Python `int()` on a nonnegative double: truncation. -/
def pyTruncPair (p : Nat × ℤ) : Nat :=
  if 52 ≤ p.2 then p.1 * 2 ^ (p.2 - 52).toNat else p.1 / 2 ^ (52 - p.2).toNat

/-- The expression `int((sorted_count / total) * 100)` of `_quest_progress`
(the int 100 converts to the float 100.0 exactly). -/
def pyPercent (s t : Nat) : Nat :=
  pyTruncPair (pyMul100 (pyDivPair s t))

/-- The progress value of `_quest_progress`: 100 when the inventory is
empty, otherwise the float computation. -/
def progressOf (sorted total : Nat) : Nat :=
  if total = 0 then 100 else pyPercent sorted total

/-- The rank ladder of `_quest_progress`. -/
def rankOf (p : Nat) : String :=
  if 95 ≤ p then "S" else if 80 ≤ p then "A" else if 60 ≤ p then "B"
  else if 30 ≤ p then "C" else "D"

/-- The fields of the quest dictionary of `_quest_progress` that vary with
the inventory (the id, title, xp, icon and hint fields are constants). -/
structure QuestInfo where
  progress : Nat
  rank : String
  sortedCount : Nat
  total : Nat
deriving DecidableEq

/-- `_quest_progress` over the record paths: a record counts as sorted when
its path lies under `<base>/_Sorted` (`Path.is_relative_to`, a component
prefix test on resolved paths). -/
def questProgress (files : List FPath) (base : FPath) : QuestInfo :=
  { progress := progressOf (files.filter (fun p => decide ((base ++ ["_Sorted"]) <+: p))).length files.length,
    rank := rankOf (progressOf (files.filter (fun p => decide ((base ++ ["_Sorted"]) <+: p))).length files.length),
    sortedCount := (files.filter (fun p => decide ((base ++ ["_Sorted"]) <+: p))).length,
    total := files.length }

/-- The record paths produced by `scan_dungeon` through `_build_scan` (all
stats succeed in the model; a stat failure only shrinks the list further). -/
def scanFiles (fs : FS) (base : FPath) (recursive : Bool) : List FPath :=
  iterFiles fs base recursive DEFAULT_EXCLUDE_DIRS

/-- The quest metric reported by `scan_dungeon`. -/
def scanQuest (fs : FS) (base : FPath) (recursive : Bool) : QuestInfo :=
  questProgress (scanFiles fs base recursive) base

/-- The mode argument of `reorganize` (the two accepted values; any other
string is rejected before any work happens). -/
inductive Mode
  | dryRun
  | apply
deriving DecidableEq

/-- One entry of the `failed` list of `reorganize`: source, destination and
the exception text. -/
structure Failure where
  src : FPath
  dst : FPath
  err : String
deriving DecidableEq

/-- The apply loop of `reorganize`: moves are attempted strictly in plan
order inside a per-move `try`.  `env` is the exception oracle: `some msg`
means the environment (permissions, races, ...) makes this move raise with
message `msg`; independently, a move whose source no longer exists raises.
Either way the failure is recorded and the loop continues.  On success the
destination parent directory exists and the file has been relocated.
Returns (applied count, failed list, resulting filesystem). -/
def applyMoves (env : Move → Option String) (fs : FS) :
    List Move → Nat × List Failure × FS
  | [] => (0, [], fs)
  | c :: rest =>
    match env c with
    | some msg =>
      let r := applyMoves env (fs.addDir c.dst.dropLast) rest
      (r.1, { src := c.src, dst := c.dst, err := msg } :: r.2.1, r.2.2)
    | none =>
      if c.src ∈ (fs.addDir c.dst.dropLast).files then
        let r := applyMoves env (((fs.addDir c.dst.dropLast).removeFile c.src).addFile c.dst) rest
        (r.1 + 1, r.2.1, r.2.2)
      else
        let r := applyMoves env (fs.addDir c.dst.dropLast) rest
        (r.1, { src := c.src, dst := c.dst, err := "source not found" } :: r.2.1, r.2.2)

/-- `_write_undo_ps1`, as the sequence of inverse relocation instructions it
emits: one `Move-Item <to> <from>` line per planned move, in reverse plan
order (the fixed two-line PowerShell header is presentation and omitted). -/
def undoScript (changes : List Move) : List (FPath × FPath) :=
  changes.reverse.map (fun c => (c.dst, c.src))

/-- The result dictionary of `reorganize` (status is always "ok" past the
guards; the `sorted_root` and path-string fields are presentation). -/
structure ReorgResult where
  planned : Nat
  applied : Nat
  failedCount : Nat
  failedShown : List Failure
  changes : List Move
  undo : List (FPath × FPath)
  fsAfter : FS

/-- `reorganize` past its guards (existing directory root, valid mode), with
the default output directory `<base>/_DungeonOutput`: create the output
directory, plan, apply the plan when in apply mode, then always write
`changes.json` and `undo.ps1`.  The result reports the applied count, the
failed count and `failed[:30]`. -/
def reorganize (env : Move → Option String) (fs0 : FS) (base : FPath)
    (recursive : Bool) (mode : Mode) : ReorgResult :=
  let plan := planReorganize (fs0.addDir (base ++ ["_DungeonOutput"])) base recursive
    DEFAULT_EXCLUDE_DIRS
  let outcome :=
    match mode with
    | Mode.apply => applyMoves env plan.2 plan.1
    | Mode.dryRun => (0, [], plan.2)
  { planned := plan.1.length,
    applied := match mode with | Mode.apply => outcome.1 | Mode.dryRun => 0,
    failedCount := outcome.2.1.length,
    failedShown := outcome.2.1.take 30,
    changes := plan.1,
    undo := undoScript plan.1,
    fsAfter := (outcome.2.2.addFile (base ++ ["_DungeonOutput", "changes.json"])).addFile
      (base ++ ["_DungeonOutput", "undo.ps1"]) }

/-! Helper lemmas shared by the claim theorems. -/

lemma addDir_files (fs : FS) (d : FPath) : (fs.addDir d).files = fs.files := by
  unfold FS.addDir
  split <;> rfl

lemma mem_addFile_files (fs : FS) (q p : FPath) :
    p ∈ (fs.addFile q).files ↔ p ∈ fs.files ∨ p = q := by
  unfold FS.addFile
  split
  · rename_i h
    constructor
    · exact Or.inl
    · rintro (h2 | rfl)
      · exact h2
      · exact h
  · simp [List.mem_append]

lemma planStep_files (sr : FPath) (acc : List Move × FS) (src : FPath) :
    (planStep sr acc src).2.files = acc.2.files := by
  unfold planStep
  split
  · rfl
  · simp [addDir_files]

lemma foldl_planStep_files :
    ∀ (l : List FPath) (sr : FPath) (acc : List Move × FS),
      ((l.foldl (planStep sr) acc).2).files = acc.2.files
  | [], _, _ => rfl
  | x :: xs, sr, acc => by
    rw [List.foldl_cons, foldl_planStep_files xs sr _, planStep_files]

lemma planReorganize_files (fs : FS) (base : FPath) (recursive : Bool) (ex : List String) :
    (planReorganize fs base recursive ex).2.files = fs.files := by
  unfold planReorganize
  rw [foldl_planStep_files]
  exact addDir_files fs _

lemma mem_iterFiles_rec {fs : FS} {base : FPath} {exclude : List String} {p : FPath} :
    p ∈ iterFiles fs base true exclude ↔
      p ∈ fs.files ∧ base <+: p ∧ base.length < p.length ∧ ¬ ∃ part ∈ p, part ∈ exclude := by
  simp [iterFiles, List.mem_filter, decide_eq_true_eq, and_assoc]

lemma applyMoves_count (env : Move → Option String) :
    ∀ (changes : List Move) (fs : FS),
      (applyMoves env fs changes).1 + (applyMoves env fs changes).2.1.length = changes.length
  | [], _ => rfl
  | c :: rest, fs => by
    cases henv : env c with
    | some msg =>
      have ih := applyMoves_count env rest (fs.addDir c.dst.dropLast)
      simp only [applyMoves, henv, List.length_cons]
      omega
    | none =>
      by_cases hsrc : c.src ∈ (fs.addDir c.dst.dropLast).files
      · have ih := applyMoves_count env rest (((fs.addDir c.dst.dropLast).removeFile c.src).addFile c.dst)
        simp only [applyMoves, henv, hsrc, if_true, List.length_cons]
        omega
      · have ih := applyMoves_count env rest (fs.addDir c.dst.dropLast)
        simp only [applyMoves, henv, hsrc, if_false, List.length_cons]
        omega

lemma applyMoves_sublist (env : Move → Option String) :
    ∀ (changes : List Move) (fs : FS),
      List.Sublist ((applyMoves env fs changes).2.1.map (fun fl => (fl.src, fl.dst)))
        (changes.map (fun c => (c.src, c.dst)))
  | [], _ => by simp [applyMoves]
  | c :: rest, fs => by
    cases henv : env c with
    | some msg =>
      have ih := applyMoves_sublist env rest (fs.addDir c.dst.dropLast)
      simp only [applyMoves, henv, List.map_cons]
      exact List.Sublist.cons₂ _ ih
    | none =>
      by_cases hsrc : c.src ∈ (fs.addDir c.dst.dropLast).files
      · have ih := applyMoves_sublist env rest (((fs.addDir c.dst.dropLast).removeFile c.src).addFile c.dst)
        simp only [applyMoves, henv, hsrc, if_true, List.map_cons]
        exact List.Sublist.cons _ ih
      · have ih := applyMoves_sublist env rest (fs.addDir c.dst.dropLast)
        simp only [applyMoves, henv, hsrc, if_false, List.map_cons]
        exact List.Sublist.cons₂ _ ih

lemma lookupRoom_not_mem :
    ∀ (rules : List (String × List String)) (e : String),
      (∀ pr ∈ rules, e ∉ pr.2) → lookupRoom rules e = UNKNOWN_ROOM
  | [], _, _ => rfl
  | (r, xs) :: rest, e, h => by
    unfold lookupRoom
    rw [if_neg (h (r, xs) (List.mem_cons_self _ _))]
    exact lookupRoom_not_mem rest e (fun pr hm => h pr (List.mem_cons_of_mem _ hm))

lemma rankOf_S {p : Nat} (h : 95 ≤ p) : rankOf p = "S" := by
  unfold rankOf
  rw [if_pos h]

lemma rankOf_A {p : Nat} (h1 : 80 ≤ p) (h2 : p < 95) : rankOf p = "A" := by
  unfold rankOf
  rw [if_neg (by omega), if_pos h1]

lemma rankOf_B {p : Nat} (h1 : 60 ≤ p) (h2 : p < 80) : rankOf p = "B" := by
  unfold rankOf
  rw [if_neg (by omega), if_neg (by omega), if_pos h1]

lemma rankOf_C {p : Nat} (h1 : 30 ≤ p) (h2 : p < 60) : rankOf p = "C" := by
  unfold rankOf
  rw [if_neg (by omega), if_neg (by omega), if_neg (by omega), if_pos h1]

lemma rankOf_D {p : Nat} (h : p < 30) : rankOf p = "D" := by
  unfold rankOf
  rw [if_neg (by omega), if_neg (by omega), if_neg (by omega), if_neg (by omega)]

lemma pyPercent_zero (t : Nat) : pyPercent 0 t = 0 := by
  simp [pyPercent, pyDivPair, pyMul100, pyTruncPair]

lemma filter_isDup_behemoth (c : Prop) [Decidable c] (p : FPath) (s : Nat) :
    ((if c then [Monster.behemoth p s] else []).filter isDup) = [] := by
  split <;> rfl

lemma filter_isDup_dup (c : Prop) [Decidable c] (a b : FPath) (s : Nat) :
    ((if c then [Monster.dup a b s] else []).filter isDup) =
      if c then [Monster.dup a b s] else [] := by
  split <;> rfl

lemma filter_isBehemoth_behemoth (c : Prop) [Decidable c] (p : FPath) (s : Nat) :
    ((if c then [Monster.behemoth p s] else []).filter isBehemoth) =
      if c then [Monster.behemoth p s] else [] := by
  split <;> rfl

lemma filter_isBehemoth_dup (c : Prop) [Decidable c] (a b : FPath) (s : Nat) :
    ((if c then [Monster.dup a b s] else []).filter isBehemoth) = [] := by
  split <;> rfl

lemma detectAux_behemoths (sha : FPath → Option Nat) :
    ∀ (files : List FRec) (seen : List ((Nat × String) × FPath)),
      (detectAux sha files seen).filter isBehemoth =
        (files.filter (fun f => decide (200 * 1024 * 1024 < f.size))).map
          (fun f => Monster.behemoth f.path f.size)
  | [], _ => rfl
  | f :: rest, seen => by
    unfold detectAux
    by_cases hs : 200 * 1024 * 1024 < f.size <;>
      cases hlk : seenLookup (keyOf f) seen <;>
        simp [hs, hlk, List.filter_append, filter_isBehemoth_behemoth, filter_isBehemoth_dup,
          detectAux_behemoths sha rest, List.filter_cons, isBehemoth]

/-! The claim theorems. -/

/-- C1: the claim states that `_safe_dest` checks the collision counter
against both the real filesystem and the destinations already allocated
earlier in the same plan, so that two same-named sources get distinct
destinations within one plan.  The code checks only `dest.exists()` on the
real filesystem and planning moves nothing, so two same-named source files
destined for the same category directory receive the identical destination
path: with `a/report.txt` and `b/report.txt` under the root, both planned
moves target `_Sorted/📚 Docs Library/report.txt`, and applying such a plan
makes the second move silently overwrite the first file. -/
theorem plan_duplicate_destination_bug :
    ((planReorganize
        { files := [["r", "a", "report.txt"], ["r", "b", "report.txt"]],
          dirs := [["r"], ["r", "a"], ["r", "b"]] }
        ["r"] true DEFAULT_EXCLUDE_DIRS).1.map Move.src =
      [["r", "a", "report.txt"], ["r", "b", "report.txt"]])
    ∧ ((planReorganize
        { files := [["r", "a", "report.txt"], ["r", "b", "report.txt"]],
          dirs := [["r"], ["r", "a"], ["r", "b"]] }
        ["r"] true DEFAULT_EXCLUDE_DIRS).1.map Move.dst =
      [["r", "_Sorted", "📚 Docs Library", "report.txt"],
       ["r", "_Sorted", "📚 Docs Library", "report.txt"]]) := by
  decide

/-- C2 counterexample: a dry-run `reorganize` is claimed to perform no
directory creation under the scanned root, but planning runs
`mkdir(parents=True, exist_ok=True)` on the sorted root (and the category
directories), so after a dry run on a root holding one loose file the
directory `<root>/_Sorted` exists although it did not before. -/
theorem dry_run_creates_sorted_dir :
    ["r", "_Sorted"] ∈ (reorganize (fun _ => none)
        { files := [["r", "a.txt"]], dirs := [["r"]] } ["r"] true Mode.dryRun).fsAfter.dirs
    ∧ ["r", "_Sorted"] ∉ ({ files := [["r", "a.txt"]], dirs := [["r"]] } : FS).dirs
    ∧ ["r"] <+: (["r", "_Sorted"] : FPath) := by
  decide

/-- C2 amended: a dry-run `reorganize` produces the same plan and the same
reversal artifact as apply mode would from the same filesystem state, moves
no file (the regular files afterwards are exactly the originals plus the two
artifact files written to the output directory), and reports zero applied
and zero failed moves; however it does create the sorted-root and category
directories (and the output directory) rather than leaving the tree
untouched. -/
theorem dry_run_frame_spec :
    ∀ (env env2 : Move → Option String) (fs : FS) (base : FPath) (recursive : Bool),
      (reorganize env fs base recursive Mode.dryRun).changes =
        (reorganize env2 fs base recursive Mode.apply).changes
      ∧ (reorganize env fs base recursive Mode.dryRun).undo =
        (reorganize env2 fs base recursive Mode.apply).undo
      ∧ (reorganize env fs base recursive Mode.dryRun).applied = 0
      ∧ (reorganize env fs base recursive Mode.dryRun).failedCount = 0
      ∧ (∀ p, p ∈ (reorganize env fs base recursive Mode.dryRun).fsAfter.files ↔
          p ∈ fs.files ∨ p = base ++ ["_DungeonOutput", "changes.json"]
            ∨ p = base ++ ["_DungeonOutput", "undo.ps1"]) := by
  intro env env2 fs base recursive
  refine ⟨rfl, rfl, rfl, rfl, ?_⟩
  intro p
  simp only [reorganize]
  rw [mem_addFile_files, mem_addFile_files, planReorganize_files, addDir_files]
  tauto

/-- C3: duplicate detection groups by (size, lowercase name); on a key
collision the stored anchor and the new record are hashed and a Duplicate
anomaly is emitted exactly when both hashes are computable and equal;
hashing yields no result for an unreadable file or one over the 50 MiB cap;
the first-seen record per key stays the anchor, so a third record with the
same key is compared against the first record, not the second. -/
theorem detect_duplicates_spec :
    (∀ (content : FPath → Option (List Nat)) (digest : List Nat → Nat) (p : FPath),
      (sha256File content digest p).isSome ↔
        ∃ bs, content p = some bs ∧ bs.length ≤ 50 * 1024 * 1024)
    ∧ (∀ (content : FPath → Option (List Nat)) (digest : List Nat → Nat) (p : FPath)
        (bs : List Nat), content p = some bs → bs.length ≤ 50 * 1024 * 1024 →
        sha256File content digest p = some (digest bs))
    ∧ (∀ (sha : FPath → Option Nat) (a b : FPath),
        hashCmp sha a b = true ↔ ∃ x, sha a = some x ∧ sha b = some x)
    ∧ (∀ (sha : FPath → Option Nat) (f1 f2 : FRec),
        (detectMonsters sha [f1, f2]).filter isDup =
          if keyOf f1 = keyOf f2 ∧ hashCmp sha f1.path f2.path = true
          then [Monster.dup f1.path f2.path f2.size] else [])
    ∧ (∀ (sha : FPath → Option Nat) (f1 f2 f3 : FRec),
        keyOf f1 = keyOf f2 → keyOf f1 = keyOf f3 →
        (detectMonsters sha [f1, f2, f3]).filter isDup =
          (if hashCmp sha f1.path f2.path then [Monster.dup f1.path f2.path f2.size] else [])
            ++ (if hashCmp sha f1.path f3.path then [Monster.dup f1.path f3.path f3.size] else [])) := by
  refine ⟨?_, ?_, ?_, ?_, ?_⟩
  · intro content digest p
    unfold sha256File
    cases h : content p with
    | none => simp
    | some bs =>
      by_cases hl : bs.length > 50 * 1024 * 1024
      · simp only [hl, if_pos]
        simp
        omega
      · simp only [hl, if_neg]
        simp
        omega
  · intro content digest p bs h1 h2
    simp only [sha256File, h1]
    rw [if_neg (by omega)]
  · intro sha a b
    unfold hashCmp
    cases ha : sha a <;> cases hb : sha b <;> simp [decide_eq_true_eq, eq_comm]
  · intro sha f1 f2
    by_cases hk : keyOf f1 = keyOf f2
    · simp [detectMonsters, detectAux, seenLookup, ← hk, List.filter_append,
        filter_isDup_behemoth, filter_isDup_dup]
    · simp [detectMonsters, detectAux, seenLookup, hk, List.filter_append,
        filter_isDup_behemoth, filter_isDup_dup]
  · intro sha f1 f2 f3 h12 h13
    simp [detectMonsters, detectAux, seenLookup, ← h12, ← h13, List.filter_append,
      filter_isDup_behemoth, filter_isDup_dup]

/-- C3 witness: three same-keyed records with all hashes computable and
equal; the second and the third are each compared against the first. -/
theorem detect_duplicates_spec_witness :
    (detectMonsters (fun _ => some 0)
        [⟨["a"], "n", 1⟩, ⟨["b"], "n", 1⟩, ⟨["c"], "n", 1⟩]).filter isDup =
      (if hashCmp (fun _ => some 0) ["a"] ["b"] then [Monster.dup ["a"] ["b"] 1] else [])
        ++ (if hashCmp (fun _ => some 0) ["a"] ["c"] then [Monster.dup ["a"] ["c"] 1] else []) :=
  detect_duplicates_spec.2.2.2.2 (fun _ => some 0)
    ⟨["a"], "n", 1⟩ ⟨["b"], "n", 1⟩ ⟨["c"], "n", 1⟩ rfl rfl

/-- C4: the reversal artifact is produced in both modes and is a function of
the plan alone (independent of the mode, of the environment and hence of
which moves fail): one inverse instruction (destination, source) per planned
move, in reverse plan order, with as many instructions as planned moves. -/
theorem undo_covers_full_plan :
    ∀ (env env2 : Move → Option String) (fs : FS) (base : FPath) (recursive : Bool)
      (m m2 : Mode),
      (reorganize env fs base recursive m).undo =
        ((reorganize env fs base recursive m).changes.map (fun c => (c.dst, c.src))).reverse
      ∧ (reorganize env fs base recursive m).undo.length =
        (reorganize env fs base recursive m).planned
      ∧ (reorganize env fs base recursive m).undo = (reorganize env2 fs base recursive m2).undo := by
  intro env env2 fs base recursive m m2
  have h1 : ∀ (c : List Move), undoScript c = (c.map (fun x => (x.dst, x.src))).reverse := by
    intro c
    unfold undoScript
    rw [List.map_reverse]
  have h2 : ∀ (c : List Move), (undoScript c).length = c.length := by
    intro c
    simp [undoScript]
  exact ⟨h1 _, h2 _, rfl⟩

/-- C5 counterexample: the claim says the result reports per-move outcomes,
but `reorganize` returns `failed[:30]`: on a plan of 31 moves that all fail,
the result counts 31 failures while listing only 30 failure records, so one
per-move outcome is absent from the result. -/
theorem failures_shown_truncated :
    (reorganize (fun _ => some "denied")
        { files := (List.range 31).map (fun i => ["r", "f" ++ toString i ++ ".txt"]),
          dirs := [["r"]] } ["r"] true Mode.apply).planned = 31
    ∧ (reorganize (fun _ => some "denied")
        { files := (List.range 31).map (fun i => ["r", "f" ++ toString i ++ ".txt"]),
          dirs := [["r"]] } ["r"] true Mode.apply).failedCount = 31
    ∧ (reorganize (fun _ => some "denied")
        { files := (List.range 31).map (fun i => ["r", "f" ++ toString i ++ ".txt"]),
          dirs := [["r"]] } ["r"] true Mode.apply).failedShown.length = 30
    ∧ (reorganize (fun _ => some "denied")
        { files := (List.range 31).map (fun i => ["r", "f" ++ toString i ++ ".txt"]),
          dirs := [["r"]] } ["r"] true Mode.apply).applied = 0 := by
  decide

/-- C5 amended: in commit mode moves are attempted strictly in plan order; a
failing move is recorded with its reason and processing continues, so
applied plus failed always equals the number of planned moves and the
failure records form an in-order subsequence of the plan; the result reports
the aggregate counts but lists only the first 30 failure records. -/
theorem apply_partial_failure_spec :
    (∀ (env : Move → Option String) (fs : FS) (changes : List Move),
      (applyMoves env fs changes).1 + (applyMoves env fs changes).2.1.length = changes.length)
    ∧ (∀ (env : Move → Option String) (fs : FS) (changes : List Move),
        List.Sublist ((applyMoves env fs changes).2.1.map (fun fl => (fl.src, fl.dst)))
          (changes.map (fun c => (c.src, c.dst))))
    ∧ (∀ (env : Move → Option String) (fs : FS) (base : FPath) (recursive : Bool),
        (reorganize env fs base recursive Mode.apply).applied +
          (reorganize env fs base recursive Mode.apply).failedCount =
          (reorganize env fs base recursive Mode.apply).planned)
    ∧ (∀ (env : Move → Option String) (fs : FS) (base : FPath) (recursive : Bool) (m : Mode),
        (reorganize env fs base recursive m).failedShown.length =
          min 30 (reorganize env fs base recursive m).failedCount) := by
  refine ⟨fun env fs changes => applyMoves_count env changes fs,
    fun env fs changes => applyMoves_sublist env changes fs, ?_, ?_⟩
  · intro env fs base recursive
    exact applyMoves_count env _ _
  · intro env fs base recursive m
    simp only [reorganize]
    exact List.length_take _ _

/-- C6 counterexample: the claim covers non-recursive scans as well, but the
non-recursive branch of `_iter_files` performs no exclusion check: a regular
file literally named `_Sorted` lying directly in the root is returned even
though its last path component is in the excluded set. -/
theorem nonrecursive_returns_excluded_name :
    iterFiles { files := [["r", "_Sorted"]], dirs := [["r"]] } ["r"] false DEFAULT_EXCLUDE_DIRS =
      [["r", "_Sorted"]]
    ∧ "_Sorted" ∈ (["r", "_Sorted"] : FPath)
    ∧ "_Sorted" ∈ DEFAULT_EXCLUDE_DIRS := by
  decide

/-- C6 amended: in recursive scans, every returned path has no component in
the excluded set; the non-recursive branch enumerates direct-child files
without any exclusion check. -/
theorem recursive_scan_excludes_spec :
    ∀ (fs : FS) (base : FPath) (exclude : List String) (p : FPath),
      p ∈ iterFiles fs base true exclude → ∀ part ∈ p, part ∉ exclude := by
  intro fs base exclude p hp part hpart hexc
  exact (mem_iterFiles_rec.mp hp).2.2.2 ⟨part, hpart, hexc⟩

/-- C6 witness: a concrete recursive scan instance of the amended claim. -/
theorem recursive_scan_excludes_spec_witness :
    "r" ∉ (["_Sorted"] : List String) :=
  recursive_scan_excludes_spec { files := [["r", "x.txt"]], dirs := [] } ["r"] ["_Sorted"]
    ["r", "x.txt"] (by decide) "r" (by decide)

/-- C7 counterexample: the claim says the percentage equals
floor(100 * sorted / total), but the code computes
`int((sorted / total) * 100)` in binary64: for 29 sorted records out of 100
the float product is just below 29, so the code reports 28 while the exact
floor is 29. -/
theorem progress_float_not_floor :
    (questProgress ((List.range 29).map (fun i => ["r", "_Sorted", toString i])
        ++ (List.range 71).map (fun i => ["r", toString i])) ["r"]).total = 100
    ∧ (questProgress ((List.range 29).map (fun i => ["r", "_Sorted", toString i])
        ++ (List.range 71).map (fun i => ["r", toString i])) ["r"]).sortedCount = 29
    ∧ (questProgress ((List.range 29).map (fun i => ["r", "_Sorted", toString i])
        ++ (List.range 71).map (fun i => ["r", toString i])) ["r"]).progress = 28
    ∧ 100 * 29 / 100 = 29 := by
  decide

/-- C7 amended: the percentage is `int((sorted_count / total_count) * 100)`
evaluated in binary64, which can fall one below the exact floor (29 of 100
yields 28); an empty inventory reports exactly 100; the rank is one of
exactly five tiers chosen by inclusive lower bounds 95, 80, 60 and 30 on the
computed percentage. -/
theorem progress_rank_spec :
    ∀ (files : List FPath) (base : FPath),
      ((questProgress files base).total = 0 → (questProgress files base).progress = 100)
      ∧ ((questProgress files base).total ≠ 0 →
          (questProgress files base).progress =
            pyPercent (questProgress files base).sortedCount (questProgress files base).total)
      ∧ (95 ≤ (questProgress files base).progress → (questProgress files base).rank = "S")
      ∧ (80 ≤ (questProgress files base).progress → (questProgress files base).progress < 95 →
          (questProgress files base).rank = "A")
      ∧ (60 ≤ (questProgress files base).progress → (questProgress files base).progress < 80 →
          (questProgress files base).rank = "B")
      ∧ (30 ≤ (questProgress files base).progress → (questProgress files base).progress < 60 →
          (questProgress files base).rank = "C")
      ∧ ((questProgress files base).progress < 30 → (questProgress files base).rank = "D") := by
  intro files base
  simp only [questProgress]
  refine ⟨?_, ?_, rankOf_S, rankOf_A, rankOf_B, rankOf_C, rankOf_D⟩
  · intro h
    simp [progressOf, h]
  · intro h
    simp [progressOf, h]

/-- C7 witness: the empty inventory reports 100 and the top tier. -/
theorem progress_rank_spec_witness :
    (questProgress [] []).progress = 100 ∧ (questProgress [] []).rank = "S" :=
  ⟨(progress_rank_spec [] []).1 rfl, (progress_rank_spec [] []).2.2.1 (by decide)⟩

/-- C8: an Oversize anomaly is emitted once per record with size strictly
greater than 200 MiB, and for no other record; a record of exactly the
threshold size is not flagged while threshold + 1 is. -/
theorem oversize_iff_spec :
    (∀ (sha : FPath → Option Nat) (files : List FRec),
      (detectMonsters sha files).filter isBehemoth =
        (files.filter (fun f => decide (200 * 1024 * 1024 < f.size))).map
          (fun f => Monster.behemoth f.path f.size))
    ∧ detectMonsters (fun _ => none) [⟨["p"], "p", 200 * 1024 * 1024⟩] = []
    ∧ detectMonsters (fun _ => none) [⟨["p"], "p", 200 * 1024 * 1024 + 1⟩] =
        [Monster.behemoth ["p"] (200 * 1024 * 1024 + 1)] := by
  refine ⟨?_, by decide, by decide⟩
  intro sha files
  exact detectAux_behemoths sha files []

/-- C9: classification lowercases the extension and scans the ordered rule
table with first match winning; every extension of a rule maps to that
rule's category, any other extension (the empty one included) maps to the
fallback category, and two extensions with the same lowercasing classify
identically. -/
theorem classify_spec :
    (∀ e1 e2 : String, lowerStr e1 = lowerStr e2 → roomFor e1 = roomFor e2)
    ∧ (∀ pr ∈ ROOM_RULES, ∀ x ∈ pr.2, roomFor x = pr.1)
    ∧ (∀ e : String, (∀ pr ∈ ROOM_RULES, lowerStr e ∉ pr.2) → roomFor e = UNKNOWN_ROOM)
    ∧ roomFor "" = UNKNOWN_ROOM
    ∧ roomFor ".PNG" = "🖼️ Images Room" := by
  refine ⟨?_, ?_, ?_, ?_, ?_⟩
  · intro e1 e2 h
    unfold roomFor
    rw [h]
  · decide
  · intro e h
    exact lookupRoom_not_mem ROOM_RULES (lowerStr e) h
  · decide
  · decide

/-- C9 witness: concrete instances of the case-insensitivity and fallback
parts of the classification claim. -/
theorem classify_spec_witness :
    roomFor ".PDF" = roomFor ".pdf" ∧ roomFor ".xyz" = UNKNOWN_ROOM :=
  ⟨classify_spec.1 ".PDF" ".pdf" (by decide),
   classify_spec.2.2.1 ".xyz" (by decide)⟩

/-- C10 counterexample: the claim covers every `scan_dungeon` inventory, but
with `include_subfolders=False` the scanner applies no exclusion: a regular
file literally named `_Sorted` directly in the root is scanned, counts as
lying under the sorted root, and yields progress 100 on a nonempty
inventory, where the claim requires 0 and reserves 100 for empty. -/
theorem nonrecursive_sorted_name_file :
    scanFiles { files := [["r", "_Sorted"]], dirs := [["r"]] } ["r"] false = [["r", "_Sorted"]]
    ∧ (scanQuest { files := [["r", "_Sorted"]], dirs := [["r"]] } ["r"] false).total = 1
    ∧ (scanQuest { files := [["r", "_Sorted"]], dirs := [["r"]] } ["r"] false).sortedCount = 1
    ∧ (scanQuest { files := [["r", "_Sorted"]], dirs := [["r"]] } ["r"] false).progress = 100 := by
  decide

/-- C10 amended: with the default recursive scan, every record produced by
`scan_dungeon` lies outside the sorted root, the sorted count is 0, the
progress is 0 for every nonempty inventory and 100 exactly when the
inventory is empty. -/
theorem default_recursive_scan_progress :
    ∀ (fs : FS) (base : FPath),
      (∀ p ∈ scanFiles fs base true, ¬ (base ++ ["_Sorted"]) <+: p)
      ∧ (scanQuest fs base true).sortedCount = 0
      ∧ (scanFiles fs base true ≠ [] → (scanQuest fs base true).progress = 0)
      ∧ (scanFiles fs base true = [] → (scanQuest fs base true).progress = 100) := by
  intro fs base
  have hnot : ∀ p ∈ scanFiles fs base true, ¬ (base ++ ["_Sorted"]) <+: p := by
    intro p hp hpre
    exact (mem_iterFiles_rec.mp hp).2.2.2
      ⟨"_Sorted", hpre.subset (by simp), by simp [DEFAULT_EXCLUDE_DIRS]⟩
  have hnil : (scanFiles fs base true).filter
      (fun p => decide ((base ++ ["_Sorted"]) <+: p)) = [] := by
    rw [List.filter_eq_nil_iff]
    intro p hp
    simp only [decide_eq_true_eq]
    exact hnot p hp
  refine ⟨hnot, ?_, ?_, ?_⟩
  · simp only [scanQuest, questProgress, hnil, List.length_nil]
  · intro hne
    simp only [scanQuest, questProgress, hnil, List.length_nil, progressOf]
    rw [if_neg (fun h => hne (List.length_eq_zero.mp h))]
    exact pyPercent_zero _
  · intro heq
    simp [scanQuest, questProgress, heq, progressOf]

/-- C10 witness: a concrete recursive scan with one unsorted file reports
progress 0. -/
theorem default_recursive_scan_progress_witness :
    (scanQuest { files := [["r", "x.txt"]], dirs := [] } ["r"] true).progress = 0 :=
  (default_recursive_scan_progress { files := [["r", "x.txt"]], dirs := [] } ["r"]).2.2.1
    (by decide)

end DungeonOrganizer
